import Mathlib

/-!
Shallow embedding of the animation sampling engine of `pyglet-dragonbones`
(files `pyglet_dragonbones/animation/animation_event.py`,
`animation/bone_event.py`, `pyglet_dragonbones/animation/skeleton_animation.py`,
`pyglet_dragonbones/animation/skeleton_animation_manager.py`,
`pyglet_dragonbones/bone/_bone_transform.py`, `pyglet_dragonbones/bone/bone.py`).

Python floats are embedded as rationals (`ℚ`); the algorithms under study
only add, subtract, multiply, divide and compare, so every concrete test
value is exact.  Python's `%` on floats (sign of the divisor) is embedded
as `pymod`.  The unbounded `while True` loop of
`AnimationEvent._get_next_valid_event_index` is embedded with explicit
fuel: a result of `none` means the loop has not terminated within the
given fuel (for the degenerate all-zero-duration track it terminates for
no fuel at all).
-/

namespace PygletDB

/-- Python's `a % b` for floats: the result carries the sign of `b`.
For `b > 0` this is `a - b * ⌊a / b⌋`, which is what `% 360` computes in
`_bone_transform.py`. -/
def pymod (a b : ℚ) : ℚ := a - b * ⌊a / b⌋

/-- One keyframe of an animation track, as stored in the parsed JSON
(`event_sequence` entries).  `duration` is `none` when the key is absent
or explicitly `null`; payload keys `x`, `y`, `rotate` are `none` when
absent (the samplers substitute their defaults). -/
structure Keyframe where
  duration : Option ℚ := none
  x : Option ℚ := none
  y : Option ℚ := none
  rotate : Option ℚ := none
deriving Repr, DecidableEq

/-- `AnimationEvent._duration_of`: `event_sequence[i].get("duration", 0)`. -/
def durationOf (seq : List Keyframe) (i : ℕ) : ℚ :=
  match seq.get? i with
  | some k => k.duration.getD 0
  | none => 0

/-- `AnimationEvent._get_next_event_index` with `step = 1`: wraps to `0`
when `event_index + step >= len(event_sequence)`. -/
def getNextEventIndex (len idx : ℕ) : ℕ :=
  if idx + 1 ≥ len then 0 else idx + 1

/-- The mutable cursor state of an `AnimationEvent`: the shared keyframe
sequence, the `event_index` playhead and the `current_duration` elapsed
time.  The cached `total_duration` is recovered by `totalDuration`
(it is set to `_duration_of(event_index)` at construction and the index
is never mutated afterwards, so the cache never goes stale). -/
structure EventCursor where
  seq : List Keyframe
  index : ℕ
  elapsed : ℚ
deriving Repr, DecidableEq

/-- The `total_duration` field of `AnimationEvent.__init__`:
`self._duration_of(event_index)`. -/
def totalDuration (c : EventCursor) : ℚ := durationOf c.seq c.index

/-- The loop body of `AnimationEvent._get_next_valid_event_index`, with
fuel.  Mirrors: `event_index = next(event_index); d = duration_of(i);
duration_sum += d; break if d > 0 and duration_sum > remainder`.
`none` means the `while True` loop did not stop within `fuel` steps. -/
def getNextValidAux (seq : List Keyframe) : ℕ → ℚ → ℚ → ℕ → Option ℕ
  | _, _, _, 0 => none
  | idx, durSum, rem, fuel + 1 =>
    let j := getNextEventIndex seq.length idx
    let d := durationOf seq j
    let s := durSum + d
    if 0 < d ∧ rem < s then some j
    else getNextValidAux seq j s rem fuel

/-- `AnimationEvent._get_next_valid_event_index(remainder_duration)` with
default arguments (`event_index = self.event_index`, `duration_sum = 0`). -/
def getNextValidEventIndex (c : EventCursor) (rem : ℚ) (fuel : ℕ) : Option ℕ :=
  getNextValidAux c.seq c.index 0 rem fuel

/-- Outcome of one `AnimationEvent.update(frame_step, cb)` call.
`hang` stands for the call never returning (the fuel ran out inside
`_get_next_valid_event_index`); `stay c` is the `return None` path with
`current_duration += frame_step` applied to the cursor; `replace c` is the
fresh cursor built by `new_event_callback`. -/
inductive UpdateResult where
  | hang : UpdateResult
  | stay : EventCursor → UpdateResult
  | replace : EventCursor → UpdateResult
deriving Repr, DecidableEq

/-- `AnimationEvent.update`: if `current_duration >= total_duration`,
compute the remainder, search the next valid index and hand
`(event_sequence, new_index, remainder + frame_step)` to the callback;
otherwise apply the sampler and add `frame_step` to `current_duration`. -/
def EventCursor.update (c : EventCursor) (frameStep : ℚ) (fuel : ℕ) : UpdateResult :=
  if c.elapsed ≥ totalDuration c then
    let rem := c.elapsed - totalDuration c
    match getNextValidEventIndex c rem fuel with
    | none => .hang
    | some j => .replace ⟨c.seq, j, rem + frameStep⟩
  else
    .stay ⟨c.seq, c.index, c.elapsed + frameStep⟩

/-- `AnimationEvent._get_info_pair`: the current keyframe and the one at
the wrapped-around next index. -/
def infoPair (c : EventCursor) : Keyframe × Keyframe :=
  ((c.seq.get? c.index).getD {}, (c.seq.get? (getNextEventIndex c.seq.length c.index)).getD {})

/-! ### `animation/bone_event.py`: the per-track-type samplers -/

/-- The interpolation expression shared by the three branches of
`BoneEvent._execute_update_changes`:
`a + ((b - a) * self.current_duration / self.total_duration if self.smooth else 0)`.
Division is `ℚ` division, with `x / 0 = 0`; the emit path is only reached
with `current_duration < total_duration`, so a zero `total_duration`
never feeds a division in live code. -/
def lerpSample (a b elapsed total : ℚ) (smooth : Bool) : ℚ :=
  a + (if smooth then (b - a) * elapsed / total else 0)

/-- `BoneEvent._execute_update_changes`, `"translateFrame"` branch:
payload keys `x`/`y` default to `0`; the result is the pair written by
`bone.set_target_position`. -/
def sampleTranslate (c : EventCursor) (smooth : Bool) : ℚ × ℚ :=
  let info := infoPair c
  (lerpSample (info.1.x.getD 0) (info.2.x.getD 0) c.elapsed (totalDuration c) smooth,
   lerpSample (info.1.y.getD 0) (info.2.y.getD 0) c.elapsed (totalDuration c) smooth)

/-- `BoneEvent._execute_update_changes`, `"rotateFrame"` branch: the
stored payload is negated (`-info.get("rotate", 0)`) before the same
interpolation; the result is written by `bone.set_target_angle`. -/
def sampleRotate (c : EventCursor) (smooth : Bool) : ℚ :=
  let info := infoPair c
  lerpSample (-(info.1.rotate.getD 0)) (-(info.2.rotate.getD 0)) c.elapsed (totalDuration c) smooth

/-- `BoneEvent._execute_update_changes`, `"scaleFrame"` branch: payload
keys `x`/`y` default to `1`; the result is written by
`bone.set_target_scale`. -/
def sampleScale (c : EventCursor) (smooth : Bool) : ℚ × ℚ :=
  let info := infoPair c
  (lerpSample (info.1.x.getD 1) (info.2.x.getD 1) c.elapsed (totalDuration c) smooth,
   lerpSample (info.1.y.getD 1) (info.2.y.getD 1) c.elapsed (totalDuration c) smooth)

/-! ### `skeleton_animation.py`: seeking a start frame -/

/-- The error taxonomy: each constructor corresponds to one `raise` site
of the animation code (`ValueError`s in Python, distinguished here by
which check fired). -/
inductive AnimError where
  | invalidSeek : AnimError
  | malformedKeyframeData : AnimError
  | frameNotFound : AnimError
  | animationNotFound : String → AnimError
deriving Repr, DecidableEq

/-- The `for event in event_sequence` loop of
`SkeletonAnimation._frame_to_index_duration`, carrying the running `i`
and `duration_count`: `None` durations are fatal, non-positive durations
are skipped without advancing `i`, and the first positive-duration event
whose `duration_count >= frame_index` is returned. -/
def frameToIndexDurationGo (frame : ℚ) : ℕ → ℚ → List Keyframe → Except AnimError (ℕ × ℚ)
  | _, _, [] => .error .frameNotFound
  | i, count, e :: rest =>
    match e.duration with
    | none => .error .malformedKeyframeData
    | some d =>
      if d ≤ 0 then frameToIndexDurationGo frame i count rest
      else if count ≥ frame then .ok (i, count - frame)
      else frameToIndexDurationGo frame (i + 1) (count + d) rest

/-- `SkeletonAnimation._frame_to_index_duration`: `duration` is the
clip's declared `info["duration"]`; a frame index greater than it is
rejected up front. -/
def frameToIndexDuration (duration frame : ℚ) (seq : List Keyframe) :
    Except AnimError (ℕ × ℚ) :=
  if frame > duration then .error .invalidSeek
  else frameToIndexDurationGo frame 0 0 seq

/-! ### `bone/_bone_transform.py` + `bone/bone.py`: per-bone pose state

One `BoneState` merges the pose fields owned by `Bone` with the
smoothing state owned by its `BoneTransform`.  Default field values are
the constructor values of the source (`smoothing_speed_timer`,
`smoothing_speed`, `smoothing_enabled`, and `Bone.__init__`'s initial
poses); `base_*` come from the bone's JSON `transform` entry.  The
world `position` field is not tracked: `_update_position` is the only
writer of `bone.position`, it computes it through the trigonometric
`rotate_position` (irrational in general), and no operation modelled
here ever reads `bone.position` back. -/

structure BoneState where
  relativePosition : ℚ × ℚ := (0, 0)
  relativeAngle : ℚ := 0
  relativeScale : ℚ × ℚ := (1, 1)
  angle : ℚ := 0
  scale : ℚ × ℚ := (1, 1)
  baseAngle : ℚ := 0
  baseScale : ℚ × ℚ := (1, 1)
  targetRelativePosition : Option (ℚ × ℚ) := none
  targetRelativeAngle : Option ℚ := none
  targetRelativeScale : Option (ℚ × ℚ) := none
  targetAngle : Option ℚ := none
  targetScale : Option (ℚ × ℚ) := none
  timerBetween : ℚ := 5
  timerCurrent : ℚ := 0
  betweenAngle : ℚ := 3 / 20
  betweenPosition : ℚ := 3 / 20
  betweenScale : ℚ := 3 / 20
  speedAngle : ℚ := 1
  speedPosition : ℚ := 1
  speedScale : ℚ := 1
  smoothAngle : Bool := true
  smoothPosition : Bool := true
  smoothScale : Bool := true
deriving Repr, DecidableEq

/-- What a bone reads from `self.bone.parent` during one update: its
world `angle` and `scale`, and whether `hasattr(parent, "skeleton_path")`
holds (true exactly when the parent is the `Skeleton` object itself). -/
structure ParentPose where
  angle : ℚ
  scale : ℚ × ℚ
  skeletonPath : Bool
deriving Repr, DecidableEq

/-- `BoneTransform.on_animation_start`: the fast-settle timer restarts at
its `between_animations` value and every per-group smoothing speed drops
to its `between_animations` value. -/
def BoneState.onAnimationStart (b : BoneState) : BoneState :=
  { b with
    timerCurrent := b.timerBetween
    speedAngle := b.betweenAngle
    speedPosition := b.betweenPosition
    speedScale := b.betweenScale }

/-- `BoneTransform.do_default_pose`: relative pose targets are reset to
the identity pose. -/
def BoneState.doDefaultPose (b : BoneState) : BoneState :=
  { b with
    targetRelativePosition := some (0, 0)
    targetRelativeAngle := some 0
    targetRelativeScale := some (1, 1) }

/-- `BoneTransform._update_relative_position_to_target`. -/
def BoneState.updateRelativePositionToTarget (b : BoneState) (fps dt : ℚ) : BoneState :=
  match b.targetRelativePosition with
  | none => b
  | some target =>
    if ¬ b.smoothPosition then { b with relativePosition := target }
    else
      let posDiff := (target.1 - b.relativePosition.1, target.2 - b.relativePosition.2)
      { b with relativePosition :=
          (b.relativePosition.1 + posDiff.1 * b.speedPosition * dt * fps,
           b.relativePosition.2 + posDiff.2 * b.speedPosition * dt * fps) }

/-- `BoneTransform._update_relative_angle_to_target`: the blend step is
taken along the shortest circular path,
`angle_diff = (target - current + 180) % 360 - 180`. -/
def BoneState.updateRelativeAngleToTarget (b : BoneState) (fps dt : ℚ) : BoneState :=
  match b.targetRelativeAngle with
  | none => b
  | some target =>
    if ¬ b.smoothAngle then { b with relativeAngle := target }
    else
      let angleDiff := pymod (target - b.relativeAngle + 180) 360 - 180
      { b with relativeAngle := b.relativeAngle + angleDiff * b.speedAngle * dt * fps }

/-- `BoneTransform._update_relative_scale_to_target`. -/
def BoneState.updateRelativeScaleToTarget (b : BoneState) (fps dt : ℚ) : BoneState :=
  match b.targetRelativeScale with
  | none => b
  | some target =>
    if ¬ b.smoothScale then { b with relativeScale := target }
    else
      let scaleDiff := (target.1 - b.relativeScale.1, target.2 - b.relativeScale.2)
      { b with relativeScale :=
          (b.relativeScale.1 + scaleDiff.1 * b.speedScale * dt * fps,
           b.relativeScale.2 + scaleDiff.2 * b.speedScale * dt * fps) }

/-- `BoneTransform._update_scale`: derives `target_scale` from the
relative scale, the base scale and the parent's world scale (x-negated
when the parent carries the `skeleton_path` marker). -/
def BoneState.updateScaleDerive (b : BoneState) (parent : ParentPose) : BoneState :=
  let anchoredScale := (b.relativeScale.1 * b.baseScale.1, b.relativeScale.2 * b.baseScale.2)
  let parentScale := if parent.skeletonPath then (parent.scale.1 * (-1), parent.scale.2) else parent.scale
  { b with targetScale := some (parentScale.1 * anchoredScale.1, parentScale.2 * anchoredScale.2) }

/-- `BoneTransform._update_angle`: derives `target_angle`; the relative
angle is scaled by the bone's own (not yet re-blended) world scale signs,
and the parent angle gains `180` under the `skeleton_path` marker. -/
def BoneState.updateAngleDerive (b : BoneState) (parent : ParentPose) : BoneState :=
  let scaledAngle := b.relativeAngle * b.scale.1 * b.scale.2
  let anchoredAngle := scaledAngle + b.baseAngle
  let parentAngle := if parent.skeletonPath then parent.angle + 180 else parent.angle
  { b with targetAngle := some (parentAngle + anchoredAngle) }

/-- `BoneTransform._update_angle_to_target`: the world angle is blended
toward `target_angle` with the same circular-shortest-path rule. -/
def BoneState.updateAngleToTarget (b : BoneState) (fps dt : ℚ) : BoneState :=
  match b.targetAngle with
  | none => b
  | some target =>
    if ¬ b.smoothAngle then { b with angle := target }
    else
      let angleDiff := pymod (target - b.angle + 180) 360 - 180
      { b with angle := b.angle + angleDiff * b.speedAngle * dt * fps }

/-- `BoneTransform._update_scale_to_target`. -/
def BoneState.updateScaleToTarget (b : BoneState) (fps dt : ℚ) : BoneState :=
  match b.targetScale with
  | none => b
  | some target =>
    if ¬ b.smoothScale then { b with scale := target }
    else
      let scaleDiff := (target.1 - b.scale.1, target.2 - b.scale.2)
      { b with scale :=
          (b.scale.1 + scaleDiff.1 * b.speedScale * dt * fps,
           b.scale.2 + scaleDiff.2 * b.speedScale * dt * fps) }

/-- The `# Applying temporary smoothing speed` block closing
`BoneTransform.update`: while `smoothing_speed_timer["current"] > 0`,
each speed is set to
`start + (1 - start) * (1 - current / between)` (with `start` the
`between_animations` speed of its group) and the timer is decremented by
`dt`; otherwise the timer is clamped to `0` and the speeds are left as
they are. -/
def BoneState.updateSmoothingSpeeds (b : BoneState) (dt : ℚ) : BoneState :=
  if b.timerCurrent > 0 then
    let timePercentage := 1 - b.timerCurrent / b.timerBetween
    { b with
      speedPosition := b.betweenPosition + (1 - b.betweenPosition) * timePercentage
      speedAngle := b.betweenAngle + (1 - b.betweenAngle) * timePercentage
      speedScale := b.betweenScale + (1 - b.betweenScale) * timePercentage
      timerCurrent := b.timerCurrent - dt }
  else
    { b with timerCurrent := 0 }

/-- `BoneTransform.update`, in source order: the three relative blends,
the scale/angle world derivations (`_update_position` writes only the
untracked world position, see `BoneState`), the post-derivation
angle/scale blends, then the temporary-smoothing-speed block. -/
def BoneState.update (b : BoneState) (parent : ParentPose) (fps dt : ℚ) : BoneState :=
  ((((((b.updateRelativePositionToTarget fps dt).updateRelativeAngleToTarget fps dt).updateRelativeScaleToTarget
      fps dt).updateScaleDerive parent).updateAngleDerive parent).updateAngleToTarget fps dt).updateScaleToTarget fps dt
    |>.updateSmoothingSpeeds dt

/-! ### `skeleton_animation.py` + `skeleton_animation_manager.py`

Python dicts keyed by strings are embedded as association lists with
replace-or-append assignment (`setEntry`), which preserves the essential
dict behaviour the claims depend on: assigning a key leaves every other
key's entry in place.  Crucially, `SkeletonAnimation.events` is a
*class* attribute — one dict object shared by every player instance —
so instantiating a new player mutates the same map the previous player
filled; the model threads that one map through the manager state.
The `"slot"` half of the events dict is handled by
`_instantiate_slot_events` / the slot loop of `update` exactly as the
`"bone"` half modelled here (same dict pattern, same
`AnimationEvent.update` cursor dynamics, `SlotEvent` in place of
`BoneEvent`). -/

/-- Dict assignment `d[k] = v` on an association list: replaces the
first entry with key `k`, or appends. -/
def setEntry {α : Type} : List (String × α) → String → α → List (String × α)
  | [], k, v => [(k, v)]
  | (k', v') :: rest, k, v =>
    if k' = k then (k, v) :: rest else (k', v') :: setEntry rest k v

/-- Dict lookup `d.get(k)` on an association list. -/
def lookupEntry {α : Type} : List (String × α) → String → Option α
  | [], _ => none
  | (k', v') :: rest, k => if k' = k then some v' else lookupEntry rest k

/-- The `event_type → event` dict held per bone inside
`SkeletonAnimation.events["bone"]`. -/
abbrev TypedEvents := List (String × EventCursor)

/-- The `bone_name → {event_type → event}` dict
`SkeletonAnimation.events["bone"]`. -/
abbrev BoneEventsMap := List (String × TypedEvents)

/-- One entry of a clip's `info["bone"]` list: the bone's name and the
keyframe sequences present for each of `BoneEvent.all_event_types`
(`"translateFrame"`, `"rotateFrame"`, `"scaleFrame"`). -/
structure BoneAnimInfo where
  name : String
  translateFrame : Option (List Keyframe) := none
  rotateFrame : Option (List Keyframe) := none
  scaleFrame : Option (List Keyframe) := none
deriving Repr, DecidableEq

/-- One clip of the armature's `animation` list, restricted to the
fields the animation engine reads: `name`, `duration` and the per-bone
track lists. -/
structure ClipInfo where
  name : String
  duration : ℚ
  bone : List BoneAnimInfo := []
deriving Repr, DecidableEq

/-- The body of the `for bone_event_type in BoneEvent.all_event_types`
loop of `SkeletonAnimation._instantiate_bone_events`: for each event
type present in the bone's animation info, seek the start frame and
build a fresh cursor. -/
def instantiateTypedEvents (duration frame : ℚ) (info : BoneAnimInfo) :
    Except AnimError TypedEvents := do
  let addType := fun (acc : TypedEvents) (tyName : String) (track : Option (List Keyframe)) =>
    match track with
    | none => Except.ok acc
    | some seq => do
      let (i, d) ← frameToIndexDuration duration frame seq
      Except.ok (acc ++ [(tyName, EventCursor.mk seq i d)])
  let acc ← addType [] "translateFrame" info.translateFrame
  let acc ← addType acc "rotateFrame" info.rotateFrame
  addType acc "scaleFrame" info.scaleFrame

/-- `SkeletonAnimation._instantiate_bone_events`: for every bone named
in the new clip, the shared events dict gets that bone's entry replaced
(`self.events["bone"][bone_name] = {}` then filled); entries for bones
not named in the clip are left untouched. -/
def instantiateBoneEvents (clip : ClipInfo) (frame : ℚ) (events : BoneEventsMap) :
    Except AnimError BoneEventsMap :=
  clip.bone.foldlM
    (fun evs info => do
      let typed ← instantiateTypedEvents clip.duration frame info
      Except.ok (setEntry evs info.name typed))
    events

/-- The per-player state of a `SkeletonAnimation` (its cursors live in
the shared class-level events dict, threaded separately). -/
structure PlayerState where
  duration : ℚ
  framerate : ℚ
  startFrame : ℚ
  frame : ℚ := 0
  speed : ℚ
  smooth : Bool := true
  playing : Bool := true
deriving Repr, DecidableEq

/-- `SkeletonAnimation.__init__`: record the clip fields and instantiate
the events for the requested start frame into the shared dict. -/
def mkSkeletonAnimation (info : ClipInfo) (framerate frame speed : ℚ)
    (events : BoneEventsMap) : Except AnimError (PlayerState × BoneEventsMap) := do
  let events' ← instantiateBoneEvents info frame events
  Except.ok ({ duration := info.duration, framerate := framerate,
               startFrame := frame, speed := speed }, events')

/-- The cursor outcome stored back after one `event.update` call inside
`SkeletonAnimation.update`: the `stay` path mutates the existing event
in place, the `replace` path swaps in the callback-built event; `none`
is the `hang` outcome (the call never returns). -/
def storedCursor : UpdateResult → Option EventCursor
  | .hang => none
  | .stay c => some c
  | .replace c => some c

/-- The inner `for event_type, event in bone_events.items()` loop of
`SkeletonAnimation.update`, applied to one bone's typed-events dict. -/
def updateTypedEvents (step : ℚ) (fuel : ℕ) : TypedEvents → Option TypedEvents
  | [] => some []
  | (ty, c) :: rest => do
    let c' ← storedCursor (c.update step fuel)
    let rest' ← updateTypedEvents step fuel rest
    some ((ty, c') :: rest')

/-- The `for bone_events in self.events["bone"].values()` loop of
`SkeletonAnimation.update`: every entry of the shared dict is ticked —
including entries instantiated by an earlier player for bones the
current clip does not animate. -/
def updateBoneEventsMap (step : ℚ) (fuel : ℕ) : BoneEventsMap → Option BoneEventsMap
  | [] => some []
  | (name, typed) :: rest => do
    let typed' ← updateTypedEvents step fuel typed
    let rest' ← updateBoneEventsMap step fuel rest
    some ((name, typed') :: rest')

/-- `SkeletonAnimation.update`: skip when paused, else advance every
cursor of the shared events dict by
`frame_step = dt * speed * framerate` and move `frame` forward by
`dt * speed`. -/
def skeletonAnimationUpdate (p : PlayerState) (events : BoneEventsMap) (dt : ℚ)
    (fuel : ℕ) : Option (PlayerState × BoneEventsMap) :=
  if ¬ p.playing then some (p, events)
  else do
    let frameStep := dt * p.speed * p.framerate
    let events' ← updateBoneEventsMap frameStep fuel events
    some ({ p with frame := p.frame + dt * p.speed }, events')

/-- The combined mutable state of a `SkeletonAnimationManager` and the
`Skeleton` it drives: the manager's `current_name`/`current`, the
skeleton's bones, and the class-level `SkeletonAnimation.events` dict
(bone half). -/
structure ManagerState where
  currentName : Option String := none
  current : Option PlayerState := none
  bones : List (String × BoneState) := []
  events : BoneEventsMap := []
deriving Repr, DecidableEq

/-- `Skeleton.on_animation_start`: every bone's transform restarts its
fast-settle window. -/
def skeletonOnAnimationStart (st : ManagerState) : ManagerState :=
  { st with bones := st.bones.map (fun nb => (nb.1, nb.2.onAnimationStart)) }

/-- `Skeleton._do_default_pose`: every bone's relative pose targets are
reset to the identity pose. -/
def skeletonDoDefaultPose (st : ManagerState) : ManagerState :=
  { st with bones := st.bones.map (fun nb => (nb.1, nb.2.doDefaultPose)) }

/-- `SkeletonAnimationManager._get_animation_info`: first clip with a
matching name, else the `Animation ... not found.` error. -/
def getAnimationInfo (data : List ClipInfo) (name : String) : Except AnimError ClipInfo :=
  match data.find? (fun info => info.name == name) with
  | none => .error (.animationNotFound name)
  | some info => .ok info

/-- `SkeletonAnimationManager.run`: returns immediately when the
requested name equals `current_name`; otherwise `current_name` is
overwritten and `skeleton.on_animation_start()` runs *before* the name
is looked up, so the error path (`Animation ... not found.`) leaves
those mutations behind.  A `none` name does the default pose and clears
`current`; a found clip constructs the new player over the shared
events dict. -/
def managerRun (data : List ClipInfo) (framerate : ℚ) (st : ManagerState)
    (animationName : Option String) (startingFrame speed : ℚ) :
    Except AnimError Unit × ManagerState :=
  if st.currentName = animationName then (.ok (), st)
  else
    let st1 := { st with currentName := animationName }
    let st2 := skeletonOnAnimationStart st1
    match animationName with
    | none => (.ok (), { skeletonDoDefaultPose st2 with current := none })
    | some name =>
      match getAnimationInfo data name with
      | .error e => (.error e, st2)
      | .ok info =>
        match mkSkeletonAnimation info framerate startingFrame speed st2.events with
        | .error e => (.error e, st2)
        | .ok (p, events') => (.ok (), { st2 with current := some p, events := events' })

/-- `SkeletonAnimationManager.update`: tick the current player if one
exists (its cursors are the shared events dict). -/
def managerUpdate (st : ManagerState) (dt : ℚ) (fuel : ℕ) : Option ManagerState :=
  match st.current with
  | none => some st
  | some p => do
    let (p', events') ← skeletonAnimationUpdate p st.events dt fuel
    some { st with current := some p', events := events' }

/-! ## Theorems -/

/-- On a track all of whose keyframe durations read as `0`, the skip
loop of `_get_next_valid_event_index` can never satisfy its break
condition `new_event_duration > 0 and duration_sum > remainder`: no
amount of fuel makes it return. -/
lemma getNextValidAux_allZero (seq : List Keyframe)
    (h : ∀ i, durationOf seq i = 0) :
    ∀ (fuel idx : ℕ) (durSum rem : ℚ), getNextValidAux seq idx durSum rem fuel = none := by
  intro fuel
  induction fuel with
  | zero => intro idx durSum rem; rfl
  | succ n ih =>
    intro idx durSum rem
    rw [getNextValidAux]
    simp only [h (getNextEventIndex seq.length idx), lt_irrefl, false_and, if_false]
    exact ih _ _ _

/-- C1: for a track whose keyframes all have duration `0` and a cursor
with non-negative elapsed time, `AnimationEvent.update` takes the
advance branch (`current_duration >= total_duration` holds since the
total is `0`) and then `_get_next_valid_event_index` loops forever: in
the fuelled embedding the call hangs for every fuel, so no call ever
returns a cursor at all — the code does not treat the track as a fixed
pose, contradicting the claim. -/
theorem allZero_track_update_hangs (c : EventCursor)
    (hdur : ∀ i, durationOf c.seq i = 0) (helapsed : 0 ≤ c.elapsed)
    (step : ℚ) (fuel : ℕ) :
    c.update step fuel = .hang := by
  have htot : totalDuration c = 0 := hdur c.index
  unfold EventCursor.update
  rw [if_pos (by rw [htot]; exact helapsed)]
  simp only [getNextValidEventIndex, getNextValidAux_allZero c.seq hdur]

/-- The hang theorem applied to the concrete degenerate track
`[{"duration": 0}]` at index `0`, elapsed `0`, step `1`. -/
theorem allZero_track_update_hangs_witness :
    EventCursor.update ⟨[{ duration := some 0 }], 0, 0⟩ 1 5 = .hang :=
  allZero_track_update_hangs ⟨[{ duration := some 0 }], 0, 0⟩
    (fun i => by cases i <;> rfl) le_rfl 1 5

/-! ### The skip walk of `_get_next_valid_event_index`, characterised

`walkIdx len start k` is the index reached after `k` applications of the
wraparound successor; `walkSum` accumulates the durations picked up along
the walk (the loop's `duration_sum`); `walkHit k` is the loop's break
condition at the `(k+1)`-st visited index. -/

/-- The index visited after `k` steps of the wraparound walk. -/
def walkIdx (len start : ℕ) : ℕ → ℕ
  | 0 => start
  | k + 1 => getNextEventIndex len (walkIdx len start k)

/-- `duration_sum` after `k` loop iterations. -/
def walkSum (seq : List Keyframe) (start : ℕ) : ℕ → ℚ
  | 0 => 0
  | k + 1 => walkSum seq start k + durationOf seq (walkIdx seq.length start (k + 1))

/-- The loop's break condition after `k + 1` iterations:
`new_event_duration > 0 and duration_sum > remainder`. -/
def walkHit (seq : List Keyframe) (start : ℕ) (rem : ℚ) (k : ℕ) : Prop :=
  0 < durationOf seq (walkIdx seq.length start (k + 1)) ∧
    rem < walkSum seq start (k + 1)

/-- `walkHit` spelt in the exact shape the unfolded loop body produces. -/
lemma walkHit_def (seq : List Keyframe) (start : ℕ) (rem : ℚ) (k : ℕ) :
    walkHit seq start rem k ↔
      (0 < durationOf seq (getNextEventIndex seq.length (walkIdx seq.length start k)) ∧
        rem < walkSum seq start k +
          durationOf seq (getNextEventIndex seq.length (walkIdx seq.length start k))) :=
  Iff.rfl

/-- If the break condition first holds at iteration `k` (within fuel),
the loop stops exactly there and returns the `(k+1)`-st walked index. -/
lemma getNextValidAux_complete (seq : List Keyframe) (start : ℕ) (rem : ℚ) :
    ∀ (fuel n k : ℕ), n ≤ k → k < n + fuel →
      walkHit seq start rem k →
      (∀ m, n ≤ m → m < k → ¬ walkHit seq start rem m) →
      getNextValidAux seq (walkIdx seq.length start n) (walkSum seq start n) rem fuel =
        some (walkIdx seq.length start (k + 1)) := by
  intro fuel
  induction fuel with
  | zero => intro n k h1 h2 _ _; omega
  | succ f ih =>
    intro n k hnk hlt hhit hmin
    rw [getNextValidAux]
    by_cases hn : walkHit seq start rem n
    · have hk : k = n := by
        by_contra hne
        exact hmin n le_rfl (lt_of_le_of_ne hnk (fun e => hne e.symm)) hn
      subst hk
      rw [if_pos ((walkHit_def seq start rem k).mp hn)]
      rfl
    · have hkn : n < k := lt_of_le_of_ne hnk (fun e => hn (e ▸ hhit))
      rw [if_neg (fun hc => hn ((walkHit_def seq start rem n).mpr hc))]
      exact ih (n + 1) k hkn (by omega) hhit (fun m h1 h2 => hmin m (by omega) h2)

/-- Conversely, whenever the loop returns an index it is the first
walked index satisfying the break condition. -/
lemma getNextValidAux_sound (seq : List Keyframe) (start : ℕ) (rem : ℚ) :
    ∀ (fuel n j : ℕ),
      getNextValidAux seq (walkIdx seq.length start n) (walkSum seq start n) rem fuel = some j →
      ∃ k, n ≤ k ∧ k < n + fuel ∧ j = walkIdx seq.length start (k + 1) ∧
        walkHit seq start rem k ∧ ∀ m, n ≤ m → m < k → ¬ walkHit seq start rem m := by
  intro fuel
  induction fuel with
  | zero => intro n j h; exact absurd h (by rw [getNextValidAux]; simp)
  | succ f ih =>
    intro n j h
    rw [getNextValidAux] at h
    by_cases hn : walkHit seq start rem n
    · rw [if_pos ((walkHit_def seq start rem n).mp hn)] at h
      exact ⟨n, le_rfl, by omega, (Option.some_injective _ h).symm, hn,
        fun m h1 h2 => absurd (lt_of_le_of_lt h1 h2) (lt_irrefl n)⟩
    · rw [if_neg (fun hc => hn ((walkHit_def seq start rem n).mpr hc))] at h
      obtain ⟨k, hk1, hk2, hk3, hk4, hk5⟩ := ih (n + 1) j h
      refine ⟨k, by omega, by omega, hk3, hk4, fun m h1 h2 => ?_⟩
      rcases Nat.eq_or_lt_of_le h1 with he | hlt
      · exact he ▸ hn
      · exact hk5 m hlt h2

/-- C5 (amended): `AnimationEvent.update` branches on
`current_duration >= total_duration` — the step is *not* added before
the comparison.  If `elapsed < total` the cursor keeps its index and
only gains `elapsed += step` (the emit path, which samples the current
pair at progress `elapsed / total`); if `elapsed ≥ total` the walk with
wraparound runs on `remainder = elapsed - total`, and when its first
break position is `k` (within fuel) the result is a fresh cursor at the
`(k+1)`-st walked index with elapsed `remainder + step`. -/
theorem update_branch_characterisation (c : EventCursor) (step : ℚ) (fuel : ℕ) :
    (c.elapsed < totalDuration c →
      c.update step fuel = .stay ⟨c.seq, c.index, c.elapsed + step⟩) ∧
    (totalDuration c ≤ c.elapsed →
      ∀ k, k < fuel → walkHit c.seq c.index (c.elapsed - totalDuration c) k →
        (∀ m, m < k → ¬ walkHit c.seq c.index (c.elapsed - totalDuration c) m) →
        c.update step fuel =
          .replace ⟨c.seq, walkIdx c.seq.length c.index (k + 1),
                    (c.elapsed - totalDuration c) + step⟩) := by
  constructor
  · intro hlt
    unfold EventCursor.update
    rw [if_neg (not_le.mpr hlt)]
  · intro hge k hk hhit hmin
    unfold EventCursor.update
    rw [if_pos hge]
    have hrun := getNextValidAux_complete c.seq c.index (c.elapsed - totalDuration c)
      fuel 0 k (Nat.zero_le k) (by omega) hhit (fun m _ h2 => hmin m h2)
    simp only [getNextValidEventIndex]
    rw [show walkIdx c.seq.length c.index 0 = c.index from rfl,
        show walkSum c.seq c.index 0 = 0 from rfl] at hrun
    rw [hrun]

/-- The characterisation applied to the concrete looping track
`[{duration: 2}, {duration: 2}]`: a cursor at index `0` with elapsed `2`
and step `1` crosses into index `1` with elapsed `(2 - 2) + 1 = 1`, and
a cursor at index `0` with elapsed `1` stays (gaining the step). -/
theorem update_branch_characterisation_witness :
    EventCursor.update ⟨[{ duration := some 2 }, { duration := some 2 }], 0, 1⟩ 1 9
        = .stay ⟨[{ duration := some 2 }, { duration := some 2 }], 0, 2⟩ ∧
      EventCursor.update ⟨[{ duration := some 2 }, { duration := some 2 }], 0, 2⟩ 1 9
        = .replace ⟨[{ duration := some 2 }, { duration := some 2 }], 1, 1⟩ := by
  constructor
  · have h := (update_branch_characterisation
      ⟨[{ duration := some 2 }, { duration := some 2 }], 0, 1⟩ 1 9).1
    rw [h (by norm_num [totalDuration, durationOf])]
    norm_num
  · have h := (update_branch_characterisation
      ⟨[{ duration := some 2 }, { duration := some 2 }], 0, 2⟩ 1 9).2
    rw [h (by norm_num [totalDuration, durationOf]) 0 (by norm_num)
      (by constructor <;> norm_num [walkHit, walkIdx, walkSum, durationOf, getNextEventIndex, totalDuration])
      (fun m hm => absurd hm (Nat.not_lt_zero m))]
    norm_num [totalDuration, durationOf, walkIdx, getNextEventIndex]

/-- C5 (counterexample to the claim as stated): for the single-keyframe
track `[{duration: 2}]` at index `0`, elapsed `1`, step `5`, the claimed
advance condition `elapsed + step ≥ total` holds (`6 ≥ 2`), yet the code
compares only `elapsed` with `total` (`1 < 2`), takes the emit path,
returns no fresh cursor and leaves the index unchanged with elapsed
`6`. -/
theorem update_condition_counterexample :
    totalDuration ⟨[{ duration := some 2 }], 0, 1⟩ ≤ (1 : ℚ) + 5 ∧
      EventCursor.update ⟨[{ duration := some 2 }], 0, 1⟩ 5 9
        = .stay ⟨[{ duration := some 2 }], 0, 6⟩ := by
  constructor
  · norm_num [totalDuration, durationOf]
  · norm_num [EventCursor.update, totalDuration, durationOf]

/-! ### Seeking a start frame (`_frame_to_index_duration`) -/

/-- The `duration_count` value the seek loop has accumulated on arriving
at entry `k`: the sum of the positive durations among the first `k`
entries (non-positive entries are skipped and contribute nothing). -/
def posPrefixSum (seq : List Keyframe) (k : ℕ) : ℚ :=
  ((seq.take k).map (fun e => max (e.duration.getD 0) 0)).sum

/-- Entry `k` of the track satisfies the seek loop's return condition
for `frame`, with no malformed (`None`) duration encountered on the
way: this is what "the start frame is covered by the track's keyframes"
amounts to in the code. -/
def coveredAt (seq : List Keyframe) (frame : ℚ) (k : ℕ) : Prop :=
  k < seq.length ∧
    (∀ i, i ≤ k → ((seq.get? i).getD {}).duration ≠ none) ∧
    0 < ((seq.get? k).getD {}).duration.getD 0 ∧
    frame ≤ posPrefixSum seq k

/-- The seek loop succeeds whenever some entry covers the frame, for any
starting `i` and any already-accumulated `count` absorbed into the
coverage bound. -/
lemma frameToIndexDurationGo_covered :
    ∀ (seq : List Keyframe) (k : ℕ) (frame count : ℚ) (i : ℕ),
      k < seq.length →
      (∀ m, m ≤ k → ((seq.get? m).getD {}).duration ≠ none) →
      0 < ((seq.get? k).getD {}).duration.getD 0 →
      frame ≤ count + posPrefixSum seq k →
      ∃ p, frameToIndexDurationGo frame i count seq = .ok p := by
  intro seq
  induction seq with
  | nil => intro k frame count i hk; exact absurd hk (by simp)
  | cons e rest ih =>
    intro k frame count i hk hdef hpos hcov
    have h0 : e.duration ≠ none := by simpa using hdef 0 (Nat.zero_le k)
    obtain ⟨d, hd⟩ := Option.ne_none_iff_exists'.mp h0
    simp only [frameToIndexDurationGo, hd]
    by_cases hdle : d ≤ 0
    · rw [if_pos hdle]
      obtain ⟨k', rfl⟩ : ∃ k', k = k' + 1 := by
        cases k with
        | zero => exact absurd hpos (by simp [hd]; linarith)
        | succ k' => exact ⟨k', rfl⟩
      refine ih k' frame count i (by simpa using hk)
        (fun m hm => hdef (m + 1) (by omega)) (by simpa using hpos) ?_
      have : posPrefixSum (e :: rest) (k' + 1) = posPrefixSum rest k' := by
        simp [posPrefixSum, hd, max_eq_right hdle]
      linarith [hcov, this.symm.le]
    · rw [if_neg hdle]
      by_cases hge : count ≥ frame
      · rw [if_pos hge]
        exact ⟨(i, count - frame), rfl⟩
      · rw [if_neg hge]
        obtain ⟨k', rfl⟩ : ∃ k', k = k' + 1 := by
          cases k with
          | zero =>
            exfalso
            have : posPrefixSum (e :: rest) 0 = 0 := by simp [posPrefixSum]
            rw [this] at hcov
            exact hge (by linarith)
          | succ k' => exact ⟨k', rfl⟩
        refine ih k' frame (count + d) (i + 1) (by simpa using hk)
          (fun m hm => hdef (m + 1) (by omega)) (by simpa using hpos) ?_
        have : posPrefixSum (e :: rest) (k' + 1)
            = max d 0 + posPrefixSum rest k' := by
          simp [posPrefixSum, hd]
        rw [this, max_eq_left (le_of_not_le hdle)] at hcov
        linarith

/-- C7 (amended): the seek-position check rejects exactly the start
frames *strictly greater* than the clip's declared duration; any frame
within the duration that some keyframe covers (in the sense of
`coveredAt`) is seeked successfully. -/
theorem seek_position_validation (duration frame : ℚ) (seq : List Keyframe) :
    (duration < frame → frameToIndexDuration duration frame seq = .error .invalidSeek) ∧
    (frame ≤ duration → ∀ k, coveredAt seq frame k →
      ∃ p, frameToIndexDuration duration frame seq = .ok p) := by
  constructor
  · intro h
    rw [frameToIndexDuration, if_pos h]
  · intro hle k hcov
    obtain ⟨h1, h2, h3, h4⟩ := hcov
    rw [frameToIndexDuration, if_neg (not_lt.mpr hle)]
    exact frameToIndexDurationGo_covered seq k frame 0 0 h1 h2 h3 (by linarith)

/-- The validation theorem applied concretely: frame `5` past duration
`4` is rejected, and frame `2` of the track `[{duration:2},{duration:5}]`
(covered by its second keyframe) seeks successfully. -/
theorem seek_position_validation_witness :
    frameToIndexDuration 4 5 [{ duration := some 2 }, { duration := some 5 }]
        = .error .invalidSeek ∧
      ∃ p, frameToIndexDuration 4 2 [{ duration := some 2 }, { duration := some 5 }]
        = .ok p := by
  constructor
  · exact (seek_position_validation 4 5 _).1 (by norm_num)
  · refine (seek_position_validation 4 2 _).2 (by norm_num) 1 ?_
    refine ⟨by norm_num, fun i hi => ?_, by norm_num, by norm_num [posPrefixSum]⟩
    interval_cases i <;> simp

/-- C7 (counterexample to the claim as stated): requesting start frame
`4` on a clip with declared duration `4` (so `frame ≥ duration`) whose
track is `[{duration:5},{duration:5}]` does *not* fail: the guard only
fires on `frame_index > self.duration`, and the loop then finds index
`1` with residual duration `1`. -/
theorem seek_at_duration_succeeds :
    (4 : ℚ) ≤ 4 ∧
      frameToIndexDuration 4 4 [{ duration := some 5 }, { duration := some 5 }]
        = .ok (1, 1) := by
  constructor
  · exact le_refl 4
  · norm_num [frameToIndexDuration, frameToIndexDurationGo]

/-! ### The transform-track samplers -/

/-- C8: a transform-track sample is the linear interpolation
`a + (b - a) * (elapsed / total)` of the keyframe pair when smoothing is
on (with the product collapsing to `0` when `total = 0`, so the sample
snaps to `a`), and exactly `a` when smoothing is off; on the concrete
looping translate track `[{duration:2, x:0}, {duration:2, x:10}]` at
elapsed `1` inside keyframe `0` this yields `x = 5` with smoothing on
and `x = 0` with smoothing off. -/
theorem transform_track_sampling :
    (∀ a b elapsed total : ℚ,
        lerpSample a b elapsed total true = a + (b - a) * (elapsed / total) ∧
        lerpSample a b elapsed total false = a ∧
        lerpSample a b elapsed 0 true = a) ∧
      (sampleTranslate ⟨[{ duration := some 2, x := some 0 },
          { duration := some 2, x := some 10 }], 0, 1⟩ true).1 = 5 ∧
      (sampleTranslate ⟨[{ duration := some 2, x := some 0 },
          { duration := some 2, x := some 10 }], 0, 1⟩ false).1 = 0 := by
  refine ⟨fun a b elapsed total => ⟨?_, ?_, ?_⟩, ?_, ?_⟩
  · simp [lerpSample, mul_div_assoc]
  · simp [lerpSample]
  · simp [lerpSample]
  · norm_num [sampleTranslate, lerpSample, infoPair, totalDuration, durationOf,
      getNextEventIndex]
  · norm_num [sampleTranslate, lerpSample, infoPair, totalDuration, durationOf,
      getNextEventIndex]

/-! ### The fast-settle window (`BoneTransform.update`, timer block)

The eight fields below are the ones the temporary-smoothing-speed block
reads or writes; every step of `BoneTransform.update` preceding it
touches only pose fields, so the block's behaviour across a full tick is
exactly its behaviour in isolation. -/

/-- The smoothing-relevant fields of a bone state, tupled. -/
def smoothingOf (b : BoneState) : ℚ × ℚ × ℚ × ℚ × ℚ × ℚ × ℚ × ℚ :=
  (b.speedAngle, b.speedPosition, b.speedScale, b.timerCurrent, b.timerBetween,
   b.betweenAngle, b.betweenPosition, b.betweenScale)

lemma smoothingOf_updateRelativePositionToTarget (b : BoneState) (fps dt : ℚ) :
    smoothingOf (b.updateRelativePositionToTarget fps dt) = smoothingOf b := by
  unfold BoneState.updateRelativePositionToTarget
  split
  · rfl
  · split_ifs <;> rfl

lemma smoothingOf_updateRelativeAngleToTarget (b : BoneState) (fps dt : ℚ) :
    smoothingOf (b.updateRelativeAngleToTarget fps dt) = smoothingOf b := by
  unfold BoneState.updateRelativeAngleToTarget
  split
  · rfl
  · split_ifs <;> rfl

lemma smoothingOf_updateRelativeScaleToTarget (b : BoneState) (fps dt : ℚ) :
    smoothingOf (b.updateRelativeScaleToTarget fps dt) = smoothingOf b := by
  unfold BoneState.updateRelativeScaleToTarget
  split
  · rfl
  · split_ifs <;> rfl

lemma smoothingOf_updateScaleDerive (b : BoneState) (parent : ParentPose) :
    smoothingOf (b.updateScaleDerive parent) = smoothingOf b := rfl

lemma smoothingOf_updateAngleDerive (b : BoneState) (parent : ParentPose) :
    smoothingOf (b.updateAngleDerive parent) = smoothingOf b := rfl

lemma smoothingOf_updateAngleToTarget (b : BoneState) (fps dt : ℚ) :
    smoothingOf (b.updateAngleToTarget fps dt) = smoothingOf b := by
  unfold BoneState.updateAngleToTarget
  split
  · rfl
  · split_ifs <;> rfl

lemma smoothingOf_updateScaleToTarget (b : BoneState) (fps dt : ℚ) :
    smoothingOf (b.updateScaleToTarget fps dt) = smoothingOf b := by
  unfold BoneState.updateScaleToTarget
  split
  · rfl
  · split_ifs <;> rfl

/-- The timer block reads only the tupled smoothing fields, so it maps
states with equal smoothing fields to states with equal smoothing
fields. -/
lemma smoothingOf_congr {b₁ b₂ : BoneState}
    (h : smoothingOf b₁ = smoothingOf b₂) (dt : ℚ) :
    smoothingOf (b₁.updateSmoothingSpeeds dt) = smoothingOf (b₂.updateSmoothingSpeeds dt) := by
  simp only [smoothingOf, Prod.mk.injEq] at h
  obtain ⟨e1, e2, e3, e4, e5, e6, e7, e8⟩ := h
  unfold BoneState.updateSmoothingSpeeds
  rw [e4, e5, e6, e7, e8]
  split_ifs <;> simp [smoothingOf, e1, e2, e3, e4, e5, e6, e7, e8]

/-- Across one full `BoneTransform.update` tick, the smoothing fields
evolve exactly as the isolated timer block prescribes. -/
lemma smoothingOf_update (b : BoneState) (parent : ParentPose) (fps dt : ℚ) :
    smoothingOf (b.update parent fps dt) = smoothingOf (b.updateSmoothingSpeeds dt) := by
  unfold BoneState.update
  exact smoothingOf_congr
    (((((((smoothingOf_updateScaleToTarget _ fps dt).trans
      (smoothingOf_updateAngleToTarget _ fps dt)).trans
      (smoothingOf_updateAngleDerive _ parent)).trans
      (smoothingOf_updateScaleDerive _ parent)).trans
      (smoothingOf_updateRelativeScaleToTarget _ fps dt)).trans
      (smoothingOf_updateRelativeAngleToTarget _ fps dt)).trans
      (smoothingOf_updateRelativePositionToTarget b fps dt)) dt

/-- C6 (amended): while the fast-settle timer is strictly positive, a
tick sets each per-group smoothing rate to the between-animations rate
linearly interpolated toward `1` by the elapsed fraction of the window
(`1 - current / between`, computed *before* the timer decrement) and
decrements the timer by `dt`; once the timer is `≤ 0`, a tick clamps it
to `0` and leaves the rates at whatever value they last had — they are
*not* reset to the nominal rate `1`. -/
theorem fast_settle_rate_schedule (b : BoneState) (parent : ParentPose) (fps dt : ℚ) :
    (0 < b.timerCurrent →
      (b.update parent fps dt).speedAngle
          = b.betweenAngle + (1 - b.betweenAngle) * (1 - b.timerCurrent / b.timerBetween) ∧
      (b.update parent fps dt).speedPosition
          = b.betweenPosition + (1 - b.betweenPosition) * (1 - b.timerCurrent / b.timerBetween) ∧
      (b.update parent fps dt).speedScale
          = b.betweenScale + (1 - b.betweenScale) * (1 - b.timerCurrent / b.timerBetween) ∧
      (b.update parent fps dt).timerCurrent = b.timerCurrent - dt) ∧
    (b.timerCurrent ≤ 0 →
      (b.update parent fps dt).speedAngle = b.speedAngle ∧
      (b.update parent fps dt).speedPosition = b.speedPosition ∧
      (b.update parent fps dt).speedScale = b.speedScale ∧
      (b.update parent fps dt).timerCurrent = 0) := by
  have h := smoothingOf_update b parent fps dt
  simp only [smoothingOf, Prod.mk.injEq] at h
  obtain ⟨e1, e2, e3, e4, _⟩ := h
  constructor
  · intro ht
    rw [e1, e2, e3, e4]
    unfold BoneState.updateSmoothingSpeeds
    rw [if_pos ht]
    exact ⟨rfl, rfl, rfl, rfl⟩
  · intro ht
    rw [e1, e2, e3, e4]
    unfold BoneState.updateSmoothingSpeeds
    rw [if_neg (not_lt.mpr ht)]
    exact ⟨rfl, rfl, rfl, rfl⟩

/-- The schedule theorem applied to a bone one time-unit before the end
of its window (timer `1`, window length `5`, between rate `3/20`): the
tick yields rate `3/20 + (17/20)(4/5) = 83/100` and timer `0`; a bone
whose timer is already `0` keeps its rates unchanged. -/
theorem fast_settle_rate_schedule_witness :
    ((({ timerCurrent := 1 } : BoneState).update ⟨0, (1, 1), false⟩ 30 1).speedAngle
        = 3 / 20 + (1 - 3 / 20) * (1 - 1 / 5) ∧
      (({ timerCurrent := 1 } : BoneState).update ⟨0, (1, 1), false⟩ 30 1).speedPosition
        = 3 / 20 + (1 - 3 / 20) * (1 - 1 / 5) ∧
      (({ timerCurrent := 1 } : BoneState).update ⟨0, (1, 1), false⟩ 30 1).speedScale
        = 3 / 20 + (1 - 3 / 20) * (1 - 1 / 5) ∧
      (({ timerCurrent := 1 } : BoneState).update ⟨0, (1, 1), false⟩ 30 1).timerCurrent = 1 - 1) ∧
      ((({ timerCurrent := 0, speedAngle := 83 / 100 } : BoneState).update
          ⟨0, (1, 1), false⟩ 30 1).speedAngle = 83 / 100 ∧
        (({ timerCurrent := 0, speedAngle := 83 / 100 } : BoneState).update
          ⟨0, (1, 1), false⟩ 30 1).timerCurrent = 0) := by
  constructor
  · have h := (fast_settle_rate_schedule { timerCurrent := 1 } ⟨0, (1, 1), false⟩ 30 1).1
      (by norm_num)
    simpa using h
  · have h := (fast_settle_rate_schedule { timerCurrent := 0, speedAngle := 83 / 100 }
      ⟨0, (1, 1), false⟩ 30 1).2 (by norm_num)
    exact ⟨h.1, h.2.2.2⟩

/-- C6 (counterexample to the claim as stated): a bone entering a tick
with timer `1` (between rate `3/20`, window `5`) gets rate `83/100` and
timer `0`; on the *next* tick — the timer having reached `0` — the rate
stays `83/100`, which is not the nominal rate `1.0`.  Rates are never
pinned back to `1` after the window. -/
theorem fast_settle_not_pinned_counterexample :
    ((({ timerCurrent := 1 } : BoneState).update ⟨0, (1, 1), false⟩ 30 1).update
        ⟨0, (1, 1), false⟩ 30 1).timerCurrent = 0 ∧
      ((({ timerCurrent := 1 } : BoneState).update ⟨0, (1, 1), false⟩ 30 1).update
        ⟨0, (1, 1), false⟩ 30 1).speedAngle = 83 / 100 ∧
      (83 : ℚ) / 100 ≠ 1 := by
  have h1 := smoothingOf_update ({ timerCurrent := 1 } : BoneState) ⟨0, (1, 1), false⟩ 30 1
  have h2 := (smoothingOf_update (({ timerCurrent := 1 } : BoneState).update
      ⟨0, (1, 1), false⟩ 30 1) ⟨0, (1, 1), false⟩ 30 1).trans (smoothingOf_congr h1 1)
  simp only [smoothingOf, Prod.mk.injEq] at h2
  obtain ⟨e1, _, _, e4, _⟩ := h2
  refine ⟨?_, ?_, by norm_num⟩
  · rw [e4]
    norm_num [BoneState.updateSmoothingSpeeds]
  · rw [e1]
    norm_num [BoneState.updateSmoothingSpeeds]

/-! ### The circular shortest-path angle blend -/

/-- C9: blending the relative angle from any current value on the short
arc `[170°, 190°]` toward the target `-170°` (≡ `190°`) with smoothing
enabled and an effective blend factor `rate·dt·fps` in `(0, 1]`:
the step taken is `angle_diff = ((target - current + 180) mod 360) - 180
= 190 - current` — the short circular path (magnitude at most `20°`,
crossing `180°`), never the long path through `0°` — and the new angle
stays inside `[170°, 190°]`, strictly increasing toward `190°` while it
has not arrived. -/
theorem circular_angle_blend (b : BoneState) (fps dt : ℚ)
    (htgt : b.targetRelativeAngle = some (-170))
    (hsm : b.smoothAngle = true)
    (hcur₁ : 170 ≤ b.relativeAngle) (hcur₂ : b.relativeAngle ≤ 190)
    (hrate₁ : 0 < b.speedAngle * dt * fps) (hrate₂ : b.speedAngle * dt * fps ≤ 1) :
    pymod (-170 - b.relativeAngle + 180) 360 - 180 = 190 - b.relativeAngle ∧
    (b.updateRelativeAngleToTarget fps dt).relativeAngle
        = b.relativeAngle + (190 - b.relativeAngle) * (b.speedAngle * dt * fps) ∧
    170 ≤ (b.updateRelativeAngleToTarget fps dt).relativeAngle ∧
    (b.updateRelativeAngleToTarget fps dt).relativeAngle ≤ 190 ∧
    (b.relativeAngle < 190 →
      b.relativeAngle < (b.updateRelativeAngleToTarget fps dt).relativeAngle) := by
  have hdiff : pymod (-170 - b.relativeAngle + 180) 360 - 180 = 190 - b.relativeAngle := by
    have hfloor : ⌊(-170 - b.relativeAngle + 180) / 360⌋ = -1 := by
      rw [Int.floor_eq_iff]
      constructor
      · push_cast
        rw [le_div_iff₀ (by norm_num : (0:ℚ) < 360)]
        linarith
      · push_cast
        rw [div_lt_iff₀ (by norm_num : (0:ℚ) < 360)]
        linarith
    rw [pymod, hfloor]
    push_cast
    ring
  have hval : (b.updateRelativeAngleToTarget fps dt).relativeAngle
      = b.relativeAngle + (190 - b.relativeAngle) * (b.speedAngle * dt * fps) := by
    unfold BoneState.updateRelativeAngleToTarget
    rw [htgt]
    simp only [hsm, not_true, if_false, if_neg]
    rw [show (-170 : ℚ) - b.relativeAngle + 180 = -170 - b.relativeAngle + 180 from rfl]
    rw [hdiff]
    ring_nf
  refine ⟨hdiff, hval, ?_, ?_, ?_⟩
  · rw [hval]
    nlinarith
  · rw [hval]
    nlinarith
  · intro hlt
    rw [hval]
    nlinarith

/-- A bone at relative angle `170°` with target `-170°` and a smoothing
speed giving an effective blend factor `(1/60)·1·30 = 1/2`. -/
def angleTestBone : BoneState :=
  { relativeAngle := 170, targetRelativeAngle := some (-170), speedAngle := 1 / 60 }

/-- The blend theorem at the concrete start of the testable property:
current angle `170°`, target `-170°`, effective blend factor `1/2`
(`speed 1/60`, `dt 1`, `fps 30`): the step is the short-path `+20°`
scaled by `1/2`, landing inside `[170°, 190°]` above `170°`. -/
theorem circular_angle_blend_witness :
    pymod (-170 - angleTestBone.relativeAngle + 180) 360 - 180
        = 190 - angleTestBone.relativeAngle ∧
      (angleTestBone.updateRelativeAngleToTarget 30 1).relativeAngle
        = angleTestBone.relativeAngle
          + (190 - angleTestBone.relativeAngle) * (angleTestBone.speedAngle * 1 * 30) ∧
      170 ≤ (angleTestBone.updateRelativeAngleToTarget 30 1).relativeAngle ∧
      (angleTestBone.updateRelativeAngleToTarget 30 1).relativeAngle ≤ 190 ∧
      (angleTestBone.relativeAngle < 190 →
        angleTestBone.relativeAngle
          < (angleTestBone.updateRelativeAngleToTarget 30 1).relativeAngle) :=
  circular_angle_blend angleTestBone 30 1 rfl rfl
    (by norm_num [angleTestBone]) (by norm_num [angleTestBone])
    (by norm_num [angleTestBone]) (by norm_num [angleTestBone])

/-! ### `SkeletonAnimationManager.run` and animation switching -/

/-- C10: requesting the animation that is already current (including
`None` when none is current) returns immediately: no bone is touched, no
cursor re-instantiated, no field changed — the manager state is returned
exactly as it was. -/
theorem run_same_name_noop (data : List ClipInfo) (framerate : ℚ) (st : ManagerState)
    (name : Option String) (startingFrame speed : ℚ)
    (h : st.currentName = name) :
    managerRun data framerate st name startingFrame speed = (.ok (), st) := by
  unfold managerRun
  rw [if_pos h]

/-- The no-op theorem at concrete inputs: a fresh manager (current name
`None`) asked to run `None`, and a manager current on `"walk"` asked to
run `"walk"` again, are both returned unchanged. -/
theorem run_same_name_noop_witness :
    managerRun [] 30 {} none 0 1 = (.ok (), ({} : ManagerState)) ∧
      managerRun [] 30 { currentName := some "walk" } (some "walk") 0 1
        = (.ok (), ({ currentName := some "walk" } : ManagerState)) :=
  ⟨run_same_name_noop [] 30 {} none 0 1 rfl,
   run_same_name_noop [] 30 { currentName := some "walk" } (some "walk") 0 1 rfl⟩

/-- `managerRun` on a non-current *named* clip, unfolded past the
early-return check. -/
lemma managerRun_some (data : List ClipInfo) (framerate : ℚ) (st : ManagerState)
    (name : String) (startingFrame speed : ℚ)
    (hne : st.currentName ≠ some name) :
    managerRun data framerate st (some name) startingFrame speed
      = match getAnimationInfo data name with
        | .error e => (.error e, skeletonOnAnimationStart { st with currentName := some name })
        | .ok info =>
          match mkSkeletonAnimation info framerate startingFrame speed
              (skeletonOnAnimationStart { st with currentName := some name }).events with
          | .error e => (.error e, skeletonOnAnimationStart { st with currentName := some name })
          | .ok (p, events') =>
            (.ok (), { skeletonOnAnimationStart { st with currentName := some name } with
                       current := some p, events := events' }) := by
  unfold managerRun
  rw [if_neg hne]

/-- `managerRun` on `None` while a clip is current, unfolded past the
early-return check. -/
lemma managerRun_none (data : List ClipInfo) (framerate : ℚ) (st : ManagerState)
    (startingFrame speed : ℚ) (hne : st.currentName ≠ none) :
    managerRun data framerate st none startingFrame speed
      = (.ok (), { skeletonDoDefaultPose
            (skeletonOnAnimationStart { st with currentName := none }) with
          current := none }) := by
  unfold managerRun
  rw [if_neg hne]

/-- C3: requesting an unknown clip name surfaces the
`Animation ... not found.` error, but *not* before `run` has overwritten
`current_name` with the unknown name and reset every bone's fast-settle
window via `skeleton.on_animation_start()`: the failed call does change
state. -/
theorem run_missing_clip_mutates_state (data : List ClipInfo) (framerate : ℚ)
    (st : ManagerState) (name : String) (startingFrame speed : ℚ)
    (hne : st.currentName ≠ some name)
    (hmiss : data.find? (fun info => info.name == name) = none) :
    managerRun data framerate st (some name) startingFrame speed
        = (.error (.animationNotFound name),
           skeletonOnAnimationStart { st with currentName := some name }) ∧
      (skeletonOnAnimationStart { st with currentName := some name }).currentName
        = some name ∧
      (skeletonOnAnimationStart { st with currentName := some name }).bones.map
          (fun nb => nb.2.timerCurrent)
        = st.bones.map (fun nb => nb.2.timerBetween) := by
  refine ⟨?_, rfl, ?_⟩
  · rw [managerRun_some data framerate st name startingFrame speed hne]
    unfold getAnimationInfo
    rw [hmiss]
  · simp [skeletonOnAnimationStart, BoneState.onAnimationStart]

/-- The mutation theorem at a concrete input: a manager current on
`"idle"` with one pristine bone, asked for the absent `"missing"` clip,
errors while leaving `current_name = "missing"` and the bone's timer
restarted at its window length. -/
theorem run_missing_clip_mutates_state_witness :
    managerRun [{ name := "idle", duration := 2 }] 30
        { currentName := some "idle", bones := [("a", {})] } (some "missing") 0 1
        = (.error (.animationNotFound "missing"),
           skeletonOnAnimationStart
             { currentName := some "missing", bones := [("a", {})] }) ∧
      (skeletonOnAnimationStart
          { currentName := some "missing", bones := [("a", {})] }).currentName
        = some "missing" ∧
      (skeletonOnAnimationStart
          { currentName := some "missing", bones := [("a", {})] }).bones.map
          (fun nb => nb.2.timerCurrent)
        = [("a", ({} : BoneState))].map (fun nb => nb.2.timerBetween) :=
  run_missing_clip_mutates_state [{ name := "idle", duration := 2 }] 30
    { currentName := some "idle", bones := [("a", {})] } "missing" 0 1
    (by simp) (by simp)

/-- C4 (amended): switching to a *named* clip (current or not found or
constructed — every branch that is not the `None` reset) leaves each
bone's relative pose targets exactly as they were — they are *not* reset
to the identity pose — while each bone's fast-settle timer restarts at
its (non-zero by default) window length; only `run(None)` routes through
`_do_default_pose`, which resets the targets to identity
`((0,0), 0, (1,1))`. -/
theorem run_switch_pose_targets (data : List ClipInfo) (framerate : ℚ)
    (st : ManagerState) (name : String) (startingFrame speed : ℚ)
    (hne : st.currentName ≠ some name) :
    ((managerRun data framerate st (some name) startingFrame speed).2.bones.map
        (fun nb => (nb.1, nb.2.targetRelativePosition, nb.2.targetRelativeAngle,
          nb.2.targetRelativeScale))
      = st.bones.map
        (fun nb => (nb.1, nb.2.targetRelativePosition, nb.2.targetRelativeAngle,
          nb.2.targetRelativeScale)) ∧
      (managerRun data framerate st (some name) startingFrame speed).2.bones.map
          (fun nb => nb.2.timerCurrent)
        = st.bones.map (fun nb => nb.2.timerBetween)) ∧
    (st.currentName ≠ none →
      (managerRun data framerate st none startingFrame speed).2.bones.map
          (fun nb => (nb.1, nb.2.targetRelativePosition, nb.2.targetRelativeAngle,
            nb.2.targetRelativeScale))
        = st.bones.map (fun nb => (nb.1, some ((0 : ℚ), (0 : ℚ)), some (0 : ℚ),
            some ((1 : ℚ), (1 : ℚ))))) := by
  constructor
  · have hbones : (managerRun data framerate st (some name) startingFrame speed).2.bones
        = st.bones.map (fun nb => (nb.1, nb.2.onAnimationStart)) := by
      rw [managerRun_some data framerate st name startingFrame speed hne]
      rcases getAnimationInfo data name with e | info
      · rfl
      · dsimp only
        rcases mkSkeletonAnimation info framerate startingFrame speed
          (skeletonOnAnimationStart { st with currentName := some name }).events
          with e | ⟨p, events'⟩
        · rfl
        · rfl
    rw [hbones, List.map_map, List.map_map]
    exact ⟨rfl, rfl⟩
  · intro hn
    have hbones : (managerRun data framerate st none startingFrame speed).2.bones
        = (st.bones.map (fun nb => (nb.1, nb.2.onAnimationStart))).map
            (fun nb => (nb.1, nb.2.doDefaultPose)) := by
      rw [managerRun_none data framerate st startingFrame speed hn]
      rfl
    rw [hbones, List.map_map, List.map_map]
    rfl

/-- The switch theorem at a concrete input: a bone carrying a stale
target angle `30°` keeps it across a successful switch to the clip
`"walk"` (timer restarted at `5`), while `run(None)` resets the targets
to identity. -/
theorem run_switch_pose_targets_witness :
    ((managerRun [{ name := "walk", duration := 2 }] 30
          { currentName := some "idle",
            bones := [("a", { targetRelativeAngle := some 30 })] }
          (some "walk") 0 1).2.bones.map
        (fun nb => (nb.1, nb.2.targetRelativePosition, nb.2.targetRelativeAngle,
          nb.2.targetRelativeScale))
      = [("a", none, some (30 : ℚ), none)] ∧
      (managerRun [{ name := "walk", duration := 2 }] 30
          { currentName := some "idle",
            bones := [("a", { targetRelativeAngle := some 30 })] }
          (some "walk") 0 1).2.bones.map (fun nb => nb.2.timerCurrent)
        = [(5 : ℚ)]) ∧
      (managerRun [{ name := "walk", duration := 2 }] 30
          { currentName := some "idle",
            bones := [("a", { targetRelativeAngle := some 30 })] }
          none 0 1).2.bones.map
          (fun nb => (nb.1, nb.2.targetRelativePosition, nb.2.targetRelativeAngle,
            nb.2.targetRelativeScale))
        = [("a", some ((0 : ℚ), (0 : ℚ)), some (0 : ℚ), some ((1 : ℚ), (1 : ℚ)))] := by
  have h := run_switch_pose_targets [{ name := "walk", duration := 2 }] 30
    { currentName := some "idle", bones := [("a", { targetRelativeAngle := some 30 })] }
    "walk" 0 1 (by simp)
  exact ⟨⟨h.1.1, h.1.2⟩, h.2 (by simp)⟩

/-- C4 (counterexample to the claim as stated): the successful switch
from `"idle"` to `"walk"` goes through — yet the bone's relative angle
target still reads the stale `30°`, not the identity `0`: `run` calls
`skeleton.on_animation_start()` (which only touches smoothing speeds and
the timer) and reserves `_do_default_pose` for the `None` branch. -/
theorem switch_keeps_stale_target_counterexample :
    (managerRun [{ name := "walk", duration := 2 }] 30
        { currentName := some "idle",
          bones := [("a", { targetRelativeAngle := some 30 })] }
        (some "walk") 0 1).1 = .ok () ∧
      (managerRun [{ name := "walk", duration := 2 }] 30
          { currentName := some "idle",
            bones := [("a", { targetRelativeAngle := some 30 })] }
          (some "walk") 0 1).2.bones.map (fun nb => nb.2.targetRelativeAngle)
        = [some (30 : ℚ)] ∧
      some (30 : ℚ) ≠ some (0 : ℚ) := by
  refine ⟨?_, ?_, by norm_num⟩ <;>
    simp [managerRun, getAnimationInfo, mkSkeletonAnimation, instantiateBoneEvents,
      skeletonOnAnimationStart, BoneState.onAnimationStart]

/-- A track cursor left behind by a previous animation for bone `"b"`. -/
def staleCursor : EventCursor := ⟨[{ duration := some 2 }], 0, 0⟩

/-- A clip animating only bone `"a"` (bone `"b"` is absent from its
definition). -/
def walkClip : ClipInfo :=
  { name := "walk", duration := 2,
    bone := [{ name := "a",
               translateFrame := some [{ duration := some 2 }, { duration := some 2 }] }] }

/-- A manager current on `"idle"` whose shared events dict still holds
the `"idle"` player's cursor for bone `"b"`. -/
def staleState : ManagerState :=
  { currentName := some "idle", events := [("b", [("translateFrame", staleCursor)])] }

/-- C2: switching from `"idle"` to `"walk"` — a clip that does not
animate bone `"b"` — does *not* discard the old player's cursor for
`"b"`: `SkeletonAnimation.events` is a class-level dict shared across
player instances and `_instantiate_bone_events` only overwrites the
entries of bones named in the new clip, so the stale `"b"` cursor
survives the switch, and the very next tick of the new player advances
it (its elapsed time moves from `0` to `frame_step = 30`). -/
theorem stale_cursor_survives_switch :
    (managerRun [walkClip] 30 staleState (some "walk") 0 1).1 = .ok () ∧
      lookupEntry (managerRun [walkClip] 30 staleState (some "walk") 0 1).2.events "b"
        = some [("translateFrame", staleCursor)] ∧
      (managerUpdate (managerRun [walkClip] 30 staleState (some "walk") 0 1).2 1 9).map
          (fun s => lookupEntry s.events "b")
        = some (some [("translateFrame", EventCursor.mk [{ duration := some 2 }] 0 30)]) := by
  have hrun : managerRun [walkClip] 30 staleState (some "walk") 0 1
      = (.ok (),
         { currentName := some "walk",
           current := some { duration := 2, framerate := 30, startFrame := 0, speed := 1 },
           bones := [],
           events := [("b", [("translateFrame", staleCursor)]),
                      ("a", [("translateFrame",
                        EventCursor.mk [{ duration := some 2 }, { duration := some 2 }] 0 0)])] }) := by
    norm_num +decide [managerRun, staleState, walkClip, getAnimationInfo,
      skeletonOnAnimationStart, mkSkeletonAnimation, instantiateBoneEvents,
      instantiateTypedEvents, frameToIndexDuration, frameToIndexDurationGo, setEntry,
      Except.instMonad, Bind.bind, Except.bind, Pure.pure, Except.pure]
  rw [hrun]
  refine ⟨rfl, by norm_num [lookupEntry], ?_⟩
  norm_num [managerUpdate, skeletonAnimationUpdate, updateBoneEventsMap, updateTypedEvents,
    storedCursor, EventCursor.update, totalDuration, durationOf, staleCursor,
    getNextValidEventIndex, lookupEntry, Option.bind]

end PygletDB
